import Mathlib

/-!
Verification development for the career-notes-tracker repository.

The embedding models the note query pipeline (`src/lib/noteUtils.ts` as
re-exported through `NotesHeader.tsx`), the note lifecycle helpers
(`NoteForm.tsx`, `NotesApp.tsx`) and the persistence adapter
(`src/lib/noteStorage.ts`).

Modelling conventions:
* JavaScript strings are Lean `String`s; `String.toLowerCase`, `trim` and
  `includes` are modelled on the underlying character lists (ASCII case
  folding, as in the repository's data).
* JavaScript `Date` values are modelled by their epoch-millisecond value
  (`Nat`); the serialized form produced by `JSON.stringify` / `Date.toJSON`
  is the ISO-8601 string `YYYY-MM-DDTHH:MM:SS.mmmZ`, reconstructed by
  `new Date(string)`; both directions are implemented below
  (`isoOfMs` / `isoParse`) over the proleptic Gregorian calendar.
* `localStorage` is a single optional stored blob.  `JSON.parse` /
  `JSON.stringify` of the platform are modelled up to the JSON value tree:
  a stored blob is either a JSON value or unparseable text (`garbage`),
  on which `JSON.parse` throws.
* `Array.prototype.sort` with a comparator `cmp` is modelled as a stable
  sort by the relation `cmp a b ≤ 0` (insertion sort); `localeCompare`
  is modelled as code-point order.
-/

namespace NotesApp

/-! ## String model -/

/-- JavaScript `String.prototype.toLowerCase`, ASCII case folding. -/
def strLower (s : String) : String :=
  ⟨s.data.map Char.toLower⟩

/-- JavaScript `String.prototype.trim` on a character list. -/
def trimChars (l : List Char) : List Char :=
  ((l.dropWhile Char.isWhitespace).reverse.dropWhile Char.isWhitespace).reverse

/-- JavaScript `String.prototype.trim`. -/
def strTrim (s : String) : String :=
  ⟨trimChars s.data⟩

/-- Does `hay` start with `needle`? -/
def startsWithList (hay needle : List Char) : Bool :=
  match hay, needle with
  | _, [] => true
  | [], _ :: _ => false
  | a :: as, b :: bs => a == b && startsWithList as bs

/-- Does `hay` contain `needle` as a contiguous substring?
(JavaScript `String.prototype.includes`.) -/
def containsList (hay needle : List Char) : Bool :=
  match hay with
  | [] => needle.isEmpty
  | _ :: t => startsWithList hay needle || containsList t needle

/-- `hay.includes(needle)` on Lean strings. -/
def strContainsB (hay needle : String) : Bool :=
  containsList hay.data needle.data

/-- JavaScript `Array.prototype.join(sep)`. -/
def joinWith (sep : String) (parts : List String) : String :=
  match parts with
  | [] => ""
  | p :: rest => rest.foldl (fun acc q => acc ++ sep ++ q) p

/-! ## Data model (`src/types/note.ts`) -/

/-- `type Priority = 'high' | 'medium' | 'low'`. -/
inductive Priority where
  | high
  | medium
  | low
deriving DecidableEq

/-- `type Category = 'bug' | 'task' | 'learning' | 'meeting' | 'feedback'`. -/
inductive Category where
  | bug
  | task
  | learning
  | meeting
  | feedback
deriving DecidableEq

/-- The string identifier of a priority value. -/
def priorityId : Priority → String
  | .high => "high"
  | .medium => "medium"
  | .low => "low"

/-- The string identifier of a category value. -/
def categoryId : Category → String
  | .bug => "bug"
  | .task => "task"
  | .learning => "learning"
  | .meeting => "meeting"
  | .feedback => "feedback"

/-- Inverse of `priorityId`, used when deserializing. -/
def priorityOfId (s : String) : Option Priority :=
  if s == "high" then some .high
  else if s == "medium" then some .medium
  else if s == "low" then some .low
  else none

/-- Inverse of `categoryId`, used when deserializing. -/
def categoryOfId (s : String) : Option Category :=
  if s == "bug" then some .bug
  else if s == "task" then some .task
  else if s == "learning" then some .learning
  else if s == "meeting" then some .meeting
  else if s == "feedback" then some .feedback
  else none

/-- `interface Note`; `createdAt` / `updatedAt` are epoch milliseconds. -/
structure Note where
  id : String
  title : String
  content : String
  tags : List String
  priority : Priority
  category : Category
  isFavorite : Bool
  createdAt : Nat
  updatedAt : Nat
deriving DecidableEq

/-- `interface SearchFilters`; `query` is a required string, the other
fields are optional (`undefined` = `none`). -/
structure SearchFilters where
  query : String
  priority : Option Priority := none
  category : Option Category := none
  isFavorite : Option Bool := none
  tags : Option (List String) := none

/-- `type SortOption = 'newest' | 'oldest' | 'title' | 'priority'`. -/
inductive SortOption where
  | newest
  | oldest
  | title
  | priority

/-- `interface NoteFormData` (the form's raw state; `tags` is the raw
comma/space separated string). -/
structure NoteFormData where
  title : String
  content : String
  tags : String
  priority : Priority
  category : Category
  isFavorite : Bool

/-- `Partial<Note>`: every field optional, as passed to `validateNote`. -/
structure NoteCandidate where
  id : Option String := none
  title : Option String := none
  content : Option String := none
  tags : Option (List String) := none
  priority : Option Priority := none
  category : Option Category := none
  isFavorite : Option Bool := none
  createdAt : Option Nat := none
  updatedAt : Option Nat := none

/-- `Partial<Note>` overrides accepted by `createNewNote`. -/
structure NoteOverrides where
  id : Option String := none
  title : Option String := none
  content : Option String := none
  tags : Option (List String) := none
  priority : Option Priority := none
  category : Option Category := none
  isFavorite : Option Bool := none
  createdAt : Option Nat := none
  updatedAt : Option Nat := none

/-! ## Query pipeline (`filterNotes`, `sortNotes`, `getNoteStats`,
`getUniqueTags` from `src/lib/noteUtils.ts`) -/

/-- The searchable text of a note:
`[note.title, note.content, ...note.tags, note.category, note.priority].join(' ')`. -/
def searchableText (note : Note) : String :=
  joinWith " " ([note.title, note.content] ++ note.tags
    ++ [categoryId note.category, priorityId note.priority])

/-- The text-query clause of `filterNotes`: skipped when `filters.query`
is falsy (the empty string), otherwise a case-insensitive substring test
against the searchable text. -/
def queryFieldOk (filters : SearchFilters) (note : Note) : Bool :=
  if filters.query == "" then true
  else strContainsB (strLower (searchableText note)) (strLower filters.query)

/-- The priority clause of `filterNotes`. -/
def priorityFieldOk (filters : SearchFilters) (note : Note) : Bool :=
  match filters.priority with
  | none => true
  | some p => note.priority == p

/-- The category clause of `filterNotes`. -/
def categoryFieldOk (filters : SearchFilters) (note : Note) : Bool :=
  match filters.category with
  | none => true
  | some c => note.category == c

/-- The favorite clause of `filterNotes` (`filters.isFavorite !== undefined`). -/
def favoriteFieldOk (filters : SearchFilters) (note : Note) : Bool :=
  match filters.isFavorite with
  | none => true
  | some b => note.isFavorite == b

/-- The tags clause of `filterNotes`: active when `filters.tags` is
present and non-empty; at least one requested tag must be a
case-insensitive substring of at least one note tag. -/
def tagsFieldOk (filters : SearchFilters) (note : Note) : Bool :=
  match filters.tags with
  | none => true
  | some ts =>
    if ts.length == 0 then true
    else ts.any fun tag =>
      note.tags.any fun noteTag => strContainsB (strLower noteTag) (strLower tag)

/-- The predicate of `filterNotes`: the source's sequence of early
returns, equivalently the conjunction of the five field clauses. -/
def noteMatches (filters : SearchFilters) (note : Note) : Bool :=
  queryFieldOk filters note && priorityFieldOk filters note
    && categoryFieldOk filters note && favoriteFieldOk filters note
    && tagsFieldOk filters note

/-- `filterNotes(notes, filters)`. -/
def filterNotes (notes : List Note) (filters : SearchFilters) : List Note :=
  notes.filter (noteMatches filters)

/-- The fixed priority rank used by the `priority` sort:
`{ high: 3, medium: 2, low: 1 }`. -/
def priorityRank : Priority → Nat
  | .high => 3
  | .medium => 2
  | .low => 1

/-- `sortNotes(notes, sortBy)`: a stable sort of a copy of the input by
the case's comparator (`a` may precede `b` iff `cmp a b ≤ 0`). -/
def sortNotes (notes : List Note) (sortBy : SortOption) : List Note :=
  match sortBy with
  | .newest => notes.insertionSort fun a b => b.createdAt ≤ a.createdAt
  | .oldest => notes.insertionSort fun a b => a.createdAt ≤ b.createdAt
  | .title => notes.insertionSort fun a b => a.title ≤ b.title
  | .priority =>
    notes.insertionSort fun a b => priorityRank b.priority ≤ priorityRank a.priority

/-- `getUniqueTags(notes)`: deduplicated (first occurrence kept) union of
all tags, sorted. -/
def getUniqueTags (notes : List Note) : List String :=
  ((notes.flatMap fun note => note.tags).eraseDups).insertionSort
    fun a b => a ≤ b

/-- Read a key of a JavaScript object-as-record (`acc[k]`), `none` when
the key is absent. -/
def recGet {κ : Type} [BEq κ] (acc : List (κ × Nat)) (k : κ) : Option Nat :=
  match acc with
  | [] => none
  | (k₂, v) :: t => if k₂ == k then some v else recGet t k

/-- Write a key of a JavaScript object-as-record (`acc[k] = v`): updates
in place when present, otherwise appends (insertion order). -/
def recSet {κ : Type} [BEq κ] (acc : List (κ × Nat)) (k : κ) (v : Nat) :
    List (κ × Nat) :=
  match acc with
  | [] => [(k, v)]
  | (k₂, v₂) :: t => if k₂ == k then (k₂, v) :: t else (k₂, v₂) :: recSet t k v

/-- `acc[k] = (acc[k] || 0) + 1`. -/
def recBump {κ : Type} [BEq κ] (acc : List (κ × Nat)) (k : κ) : List (κ × Nat) :=
  recSet acc k ((recGet acc k).getD 0 + 1)

/-- The `priorityCounts` reduce of `getNoteStats`, starting from the
empty record. -/
def priorityCounts (notes : List Note) : List (Priority × Nat) :=
  notes.foldl (fun acc note => recBump acc note.priority) []

/-- The `categoryCounts` reduce of `getNoteStats`, starting from the
empty record. -/
def categoryCounts (notes : List Note) : List (Category × Nat) :=
  notes.foldl (fun acc note => recBump acc note.category) []

/-- The result record of `getNoteStats`. -/
structure NoteStats where
  total : Nat
  favorites : Nat
  priorities : List (Priority × Nat)
  categories : List (Category × Nat)
  recentNotes : Nat
  tags : Nat
deriving DecidableEq

/-- `getNoteStats(notes)`.  The current instant (`new Date()`) is the
explicit parameter `now`; `weekAgo` is `now` minus seven days of
milliseconds (computed in `Int` since the JavaScript value may lie
before the epoch), and a note is recent when `note.createdAt > weekAgo`
(strict). -/
def getNoteStats (notes : List Note) (now : Nat) : NoteStats :=
  { total := notes.length
    favorites := (notes.filter fun note => note.isFavorite).length
    priorities := priorityCounts notes
    categories := categoryCounts notes
    recentNotes := (notes.filter fun note =>
      (now : Int) - 604800000 < (note.createdAt : Int)).length
    tags := (getUniqueTags notes).length }

/-! ## Note lifecycle helpers -/

/-- The guard `!note.title?.trim()`: `title` absent or blank after trim. -/
def titleInvalid (note : NoteCandidate) : Bool :=
  match note.title with
  | none => true
  | some t => strTrim t == ""

/-- The guard `!note.content?.trim()`: `content` absent or blank after trim. -/
def contentInvalid (note : NoteCandidate) : Bool :=
  match note.content with
  | none => true
  | some t => strTrim t == ""

/-- The guard `!note.priority`: the field is absent (a present field is
always one of the closed enumeration's values, by typing). -/
def priorityInvalid (note : NoteCandidate) : Bool :=
  note.priority.isNone

/-- The guard `!note.category`: the field is absent. -/
def categoryInvalid (note : NoteCandidate) : Bool :=
  note.category.isNone

/-- `validateNote(note)`: the messages pushed by the four guards, in
source order. -/
def validateNote (note : NoteCandidate) : List String :=
  (if titleInvalid note then ["Title is required"] else [])
    ++ (if contentInvalid note then ["Content is required"] else [])
    ++ (if priorityInvalid note then ["Priority is required"] else [])
    ++ (if categoryInvalid note then ["Category is required"] else [])

/-- `createNewNote(data)`: default fields, both timestamps the
construction instant `now`, then the overrides spread on top.  The
generated identifier is the explicit parameter `newId`. -/
def createNewNote (now : Nat) (newId : String) (data : NoteOverrides) : Note :=
  { id := data.id.getD newId
    title := data.title.getD ""
    content := data.content.getD ""
    tags := data.tags.getD []
    priority := data.priority.getD .medium
    category := data.category.getD .task
    isFavorite := data.isFavorite.getD false
    createdAt := data.createdAt.getD now
    updatedAt := data.updatedAt.getD now }

/-- One piece of `parseTags`: is the character a separator of the split
pattern `[,\s]+`? -/
def isTagSep (c : Char) : Bool :=
  c == ',' || c.isWhitespace

/-- Tokens of a character list split on runs of separators. -/
def tagTokens : List Char → List (List Char)
  | [] => []
  | c :: rest =>
    if isTagSep c then tagTokens rest
    else
      match tagTokens rest with
      | [] => [[c]]
      | t :: ts =>
        match rest with
        | [] => [[c]]
        | d :: _ => if isTagSep d then [c] :: t :: ts else (c :: t) :: ts

/-- `parseTags(tagsString)`: empty for blank input, otherwise the
non-empty pieces of the `[,\s]+` split, lower-cased (trimming a piece is
a no-op since pieces contain no separator characters). -/
def parseTags (tagsString : String) : List String :=
  if strTrim tagsString == "" then []
  else (tagTokens tagsString.data).map fun t => strLower ⟨t⟩

/-- The note constructed and saved by `NoteForm.handleSave` once
validation passes: a fresh identifier and `createdAt = now` for a new
note, the existing ones when editing; `updatedAt = now` always. -/
def handleSave (existing : Option Note) (form : NoteFormData) (now : Nat)
    (freshId : String) : Note :=
  { id := match existing with | some n => n.id | none => freshId
    title := strTrim form.title
    content := strTrim form.content
    tags := parseTags form.tags
    priority := form.priority
    category := form.category
    isFavorite := form.isFavorite
    createdAt := match existing with | some n => n.createdAt | none => now
    updatedAt := now }

/-- `NotesApp.handleToggleFavorite`'s updated note:
`{ ...note, isFavorite: !note.isFavorite, updatedAt: new Date() }`. -/
def toggleFavorite (note : Note) (now : Nat) : Note :=
  { note with isFavorite := !note.isFavorite, updatedAt := now }

/-! ## Date serialization (`Date.prototype.toJSON` / `new Date(string)`)

Epoch milliseconds to and from the ISO-8601 form
`YYYY-MM-DDTHH:MM:SS.mmmZ`, over the proleptic Gregorian calendar
(Howard Hinnant's `civil_from_days` / `days_from_civil` algorithms, the
standard epoch/day arithmetic behind JavaScript date conversion).  The
model covers the non-negative range up to year 9999, which contains
every timestamp the application produces. -/

/-- Milliseconds per day. -/
def msPerDay : Nat := 86400000

/-- Day-of-era of the start of year-of-era `y` (March-based years). -/
def soy (y : Nat) : Nat := 365 * y + y / 4 - y / 100

/-- The auxiliary count of `civil_from_days`: day-of-era minus one per
leap adjustment. -/
def gfun (doe : Nat) : Nat := doe - doe / 1460 + doe / 36524 - doe / 146096

/-- Year-of-era of a day-of-era. -/
def yoeOf (doe : Nat) : Nat := gfun doe / 365

/-- A civil (proleptic Gregorian) calendar date. -/
structure CivilDate where
  year : Nat
  month : Nat
  day : Nat
deriving DecidableEq

/-- `civil_from_days`: the calendar date of a day count since 1970-01-01. -/
def civilFromDays (days : Nat) : CivilDate :=
  let z := days + 719468
  let era := z / 146097
  let doe := z % 146097
  let yoe := yoeOf doe
  let y := yoe + era * 400
  let doy := doe - soy yoe
  let mp := (5 * doy + 2) / 153
  let d := doy - (153 * mp + 2) / 5 + 1
  let m := if mp < 10 then mp + 3 else mp - 9
  ⟨if m ≤ 2 then y + 1 else y, m, d⟩

/-- `days_from_civil`: the day count since 1970-01-01 of a calendar date. -/
def daysFromCivil (c : CivilDate) : Nat :=
  let y := if c.month ≤ 2 then c.year - 1 else c.year
  let era := y / 400
  let yoe := y % 400
  let mp := if 2 < c.month then c.month - 3 else c.month + 9
  let doy := (153 * mp + 2) / 5 + c.day - 1
  let doe := soy yoe + doy
  era * 146097 + doe - 719468

/-- The decimal digit character of `n < 10`. -/
def digitChar (n : Nat) : Char := Char.ofNat (48 + n)

/-- The value of a decimal digit character. -/
def digitVal (c : Char) : Nat := c.toNat - 48

/-- Two-digit zero-padded decimal rendering. -/
def pad2 (n : Nat) : List Char := [digitChar (n / 10), digitChar (n % 10)]

/-- Three-digit zero-padded decimal rendering. -/
def pad3 (n : Nat) : List Char :=
  [digitChar (n / 100), digitChar (n / 10 % 10), digitChar (n % 10)]

/-- Four-digit zero-padded decimal rendering. -/
def pad4 (n : Nat) : List Char :=
  [digitChar (n / 1000), digitChar (n / 100 % 10), digitChar (n / 10 % 10),
    digitChar (n % 10)]

/-- The characters of the ISO-8601 rendering of an epoch-millisecond
instant (`Date.prototype.toJSON`). -/
def isoChars (ms : Nat) : List Char :=
  let r := ms % msPerDay
  let c := civilFromDays (ms / msPerDay)
  pad4 c.year ++ '-' :: pad2 c.month ++ '-' :: pad2 c.day
    ++ 'T' :: pad2 (r / 3600000) ++ ':' :: pad2 (r % 3600000 / 60000)
    ++ ':' :: pad2 (r % 60000 / 1000) ++ '.' :: pad3 (r % 1000) ++ ['Z']

/-- `Date.prototype.toJSON`. -/
def isoOfMs (ms : Nat) : String := ⟨isoChars ms⟩

/-- `new Date(string).getTime()` on an ISO-8601 string of the canonical
shape; `none` models an invalid date. -/
def isoParse (str : String) : Option Nat :=
  match str.data with
  | [y1, y2, y3, y4, '-', m1, m2, '-', d1, d2, 'T', h1, h2, ':', n1, n2, ':',
      e1, e2, '.', f1, f2, f3, 'Z'] =>
    if y1.isDigit && y2.isDigit && y3.isDigit && y4.isDigit && m1.isDigit
        && m2.isDigit && d1.isDigit && d2.isDigit && h1.isDigit && h2.isDigit
        && n1.isDigit && n2.isDigit && e1.isDigit && e2.isDigit && f1.isDigit
        && f2.isDigit && f3.isDigit then
      let year := ((digitVal y1 * 10 + digitVal y2) * 10 + digitVal y3) * 10
        + digitVal y4
      let month := digitVal m1 * 10 + digitVal m2
      let day := digitVal d1 * 10 + digitVal d2
      let hh := digitVal h1 * 10 + digitVal h2
      let mi := digitVal n1 * 10 + digitVal n2
      let ss := digitVal e1 * 10 + digitVal e2
      let fff := (digitVal f1 * 10 + digitVal f2) * 10 + digitVal f3
      some (daysFromCivil ⟨year, month, day⟩ * msPerDay + hh * 3600000
        + mi * 60000 + ss * 1000 + fff)
    else none
  | _ => none

/-- The first epoch millisecond of year 10000: the exclusive upper bound
of the range the serialization model covers. -/
def maxIsoMs : Nat := 253402300800000

/-- Timestamps of a note lie in the modelled serialization range. -/
def noteDatesValid (note : Note) : Prop :=
  note.createdAt < maxIsoMs ∧ note.updatedAt < maxIsoMs

instance (note : Note) : Decidable (noteDatesValid note) := by
  unfold noteDatesValid; infer_instance

/-! ## Persistence adapter (`src/lib/noteStorage.ts`)

`localStorage` holds at most one blob under the notes key.  The text
layer of the platform's `JSON.parse` / `JSON.stringify` is modelled up
to the JSON value tree: a stored blob is either a JSON value (text that
parses) or `garbage` (text on which `JSON.parse` throws). -/

/-- A JSON value. -/
inductive Json where
  | null
  | bool (b : Bool)
  | num (n : Int)
  | str (s : String)
  | arr (items : List Json)
  | obj (fields : List (String × Json))

/-- A stored blob: parseable JSON text, or text `JSON.parse` rejects. -/
inductive StoredBlob where
  | json (j : Json)
  | garbage (s : String)

/-- Key lookup in a JSON object. -/
def getField : List (String × Json) → String → Option Json
  | [], _ => none
  | (k, v) :: t, key => if k == key then some v else getField t key

/-- Key lookup expecting a string value. -/
def getStrField (fields : List (String × Json)) (key : String) : Option String :=
  match getField fields key with
  | some (.str s) => some s
  | _ => none

/-- Key lookup expecting a boolean value. -/
def getBoolField (fields : List (String × Json)) (key : String) : Option Bool :=
  match getField fields key with
  | some (.bool b) => some b
  | _ => none

/-- A JSON array of strings, as a string list. -/
def jsonStrList : List Json → Option (List String)
  | [] => some []
  | .str s :: t => (jsonStrList t).map fun l => s :: l
  | _ => none

/-- The serialized field list of one note (fields in declaration order;
`Date` fields serialize through `toJSON`). -/
def noteFieldsJson (note : Note) : List (String × Json) :=
  [("id", .str note.id), ("title", .str note.title),
    ("content", .str note.content), ("tags", .arr (note.tags.map Json.str)),
    ("priority", .str (priorityId note.priority)),
    ("category", .str (categoryId note.category)),
    ("isFavorite", .bool note.isFavorite),
    ("createdAt", .str (isoOfMs note.createdAt)),
    ("updatedAt", .str (isoOfMs note.updatedAt))]

/-- `JSON.stringify`'s value for one note. -/
def noteToJson (note : Note) : Json :=
  .obj (noteFieldsJson note)

/-- The tags field decoded as a string list. -/
def decodeTagsField (fields : List (String × Json)) : Option (List String) :=
  match getField fields "tags" with
  | some (.arr items) => jsonStrList items
  | _ => none

/-- A string field decoded as a priority enumeration value. -/
def decodePriorityField (fields : List (String × Json)) : Option Priority :=
  (getStrField fields "priority").bind priorityOfId

/-- A string field decoded as a category enumeration value. -/
def decodeCategoryField (fields : List (String × Json)) : Option Category :=
  (getStrField fields "category").bind categoryOfId

/-- A string field decoded as an instant (`new Date(string)`). -/
def decodeDateField (fields : List (String × Json)) (key : String) :
    Option Nat :=
  (getStrField fields key).bind isoParse

/-- The typed view of one parsed array element after `getAllNotes`'s
rebuild `{ ...note, createdAt: new Date(...), updatedAt: new Date(...) }`.
The JavaScript rebuild is untyped; the model keeps exactly the elements
that carry every `Note` field with well-formed values. -/
def noteFromJson : Json → Option Note
  | .obj fields =>
    (getStrField fields "id").bind fun id =>
    (getStrField fields "title").bind fun title =>
    (getStrField fields "content").bind fun content =>
    (decodeTagsField fields).bind fun tags =>
    (decodePriorityField fields).bind fun priority =>
    (decodeCategoryField fields).bind fun category =>
    (getBoolField fields "isFavorite").bind fun isFavorite =>
    (decodeDateField fields "createdAt").bind fun createdAt =>
    (decodeDateField fields "updatedAt").map fun updatedAt =>
      ⟨id, title, content, tags, priority, category, isFavorite, createdAt,
        updatedAt⟩
  | _ => none

/-- `noteStorage.getAllNotes()`: empty when nothing is stored; empty when
`JSON.parse` throws (caught); empty when the parsed value is not an array
(`.map` raises, caught); otherwise the rebuilt elements. -/
def getAllNotes (store : Option StoredBlob) : List Note :=
  match store with
  | none => []
  | some (.garbage _) => []
  | some (.json (.arr items)) => items.filterMap noteFromJson
  | some (.json _) => []

/-- `noteStorage.importNotes(notes)`: overwrite the stored blob with the
serialization of the full collection. -/
def importNotes (notes : List Note) (_store : Option StoredBlob) :
    Option StoredBlob :=
  some (.json (.arr (notes.map noteToJson)))

/-- The in-memory update of `noteStorage.saveNote`: replace the note at
the first index with a matching identifier, or push at the end. -/
def saveNoteList (notes : List Note) (note : Note) : List Note :=
  match notes.findIdx? (fun n => n.id == note.id) with
  | some i => notes.set i note
  | none => notes ++ [note]

/-- `noteStorage.saveNote(note)`: load, update in memory, store the
serialization of the updated collection. -/
def saveNote (note : Note) (store : Option StoredBlob) : Option StoredBlob :=
  some (.json (.arr ((saveNoteList (getAllNotes store) note).map noteToJson)))

/-! ## Concrete sample data used by witnesses -/

/-- A concrete note used to instantiate hypotheses of proved theorems. -/
def sampleNote : Note :=
  { id := "note_1", title := "Welcome", content := "Hello world",
    tags := ["react", "frontend"], priority := .high, category := .learning,
    isFavorite := true, createdAt := 1600000000000,
    updatedAt := 1600000000000 }

/-- A second concrete note with a later creation instant. -/
def sampleNote2 : Note :=
  { id := "note_2", title := "Bug report", content := "Login fails",
    tags := ["backend"], priority := .medium, category := .bug,
    isFavorite := false, createdAt := 1600000100000,
    updatedAt := 1600000100000 }

/-! ## Claims -/

/-- C1: for every note collection and every filter set, `filterNotes` is
an order-preserving subsequence of the input, and every retained note
satisfies every one of the five filter clauses (logical AND across the
query, priority, category, favorite and tags fields; an absent field's
clause is trivially satisfied). -/
theorem C1_filterNotes_sublist_and_all_clauses
    (notes : List Note) (filters : SearchFilters) :
    (filterNotes notes filters).Sublist notes ∧
    ∀ note ∈ filterNotes notes filters,
      queryFieldOk filters note = true ∧ priorityFieldOk filters note = true ∧
      categoryFieldOk filters note = true ∧ favoriteFieldOk filters note = true ∧
      tagsFieldOk filters note = true := by
  refine ⟨List.filter_sublist notes, fun note h => ?_⟩
  have hm : noteMatches filters note = true := List.of_mem_filter h
  simp only [noteMatches, Bool.and_eq_true] at hm
  exact ⟨hm.1.1.1.1, hm.1.1.1.2, hm.1.1.2, hm.1.2, hm.2⟩

/-- C1 witness: the theorem instantiated on a concrete collection and
filter set, the membership hypothesis discharged by evaluation. -/
theorem C1_witness :
    queryFieldOk { query := "bug" } sampleNote2 = true ∧
    priorityFieldOk { query := "bug" } sampleNote2 = true ∧
    categoryFieldOk { query := "bug" } sampleNote2 = true ∧
    favoriteFieldOk { query := "bug" } sampleNote2 = true ∧
    tagsFieldOk { query := "bug" } sampleNote2 = true :=
  (C1_filterNotes_sublist_and_all_clauses [sampleNote, sampleNote2]
    { query := "bug" }).2 sampleNote2 (by decide)

/-- Reading the key just written. -/
theorem recGet_recSet_self {κ : Type} [BEq κ] [LawfulBEq κ]
    (acc : List (κ × Nat)) (k : κ) (v : Nat) :
    recGet (recSet acc k v) k = some v := by
  induction acc with
  | nil => simp [recSet, recGet]
  | cons kv t ih =>
    obtain ⟨q, w⟩ := kv
    by_cases h : q == k
    · simp [recSet, recGet, h]
    · simp [recSet, recGet, h, ih]

/-- Writing one key leaves the others unread. -/
theorem recGet_recSet_other {κ : Type} [BEq κ] [LawfulBEq κ]
    (acc : List (κ × Nat)) (k q : κ) (v : Nat) (h : q ≠ k) :
    recGet (recSet acc k v) q = recGet acc q := by
  induction acc with
  | nil =>
    have hkq : (k == q) = false := by
      simp only [beq_eq_false_iff_ne, ne_eq]
      exact fun hh => h hh.symm
    simp [recSet, recGet, hkq]
  | cons kv t ih =>
    obtain ⟨r, w⟩ := kv
    by_cases h₁ : r == k
    · have hr : r = k := by simpa [beq_iff_eq] using h₁
      have hrq : (r == q) = false := by
        simp only [beq_eq_false_iff_ne, ne_eq, hr]
        exact fun hh => h hh.symm
      simp [recSet, recGet, h₁, hrq]
    · by_cases h₂ : r == q <;> simp [recSet, recGet, h₁, h₂, ih]

/-- The value reached at one key by folding `recBump` of an extracted
key over a list, as a function of the starting record: the key stays
absent exactly when it starts absent and never occurs. -/
theorem recGet_foldl_recBump {κ α : Type} [BEq κ] [LawfulBEq κ]
    (f : α → κ) (l : List α) (acc : List (κ × Nat)) (k : κ) :
    recGet (l.foldl (fun a x => recBump a (f x)) acc) k
      = if recGet acc k = none ∧ l.countP (fun x => f x == k) = 0 then none
        else some ((recGet acc k).getD 0 + l.countP (fun x => f x == k)) := by
  induction l generalizing acc with
  | nil => cases h : recGet acc k <;> simp [h]
  | cons x rest ih =>
    rw [List.foldl_cons, ih, List.countP_cons]
    by_cases hq : f x = k
    · have h1 : recGet (recBump acc (f x)) k
          = some ((recGet acc k).getD 0 + 1) := by
        rw [hq, recBump, recGet_recSet_self]
      have hbe : (f x == k) = true := by simp [beq_iff_eq, hq]
      rw [h1]
      cases h : recGet acc k <;> simp [h, hbe] <;> omega
    · have h1 : recGet (recBump acc (f x)) k = recGet acc k := by
        rw [recBump]
        exact recGet_recSet_other acc (f x) k _ (fun hh => hq hh.symm)
      have hbe : (f x == k) = false := by simp [beq_eq_false_iff_ne, hq]
      rw [h1]
      simp only [hbe, Bool.false_eq_true, if_false, Nat.add_zero]

/-- C3 counterexample: on the empty collection the per-priority record
has no keys at all (the `reduce` starts from `{}`), so the priority
`high` is absent rather than present with count zero; the claim "all
three enumeration values always present, zero if absent" is false. -/
theorem C3_counterexample :
    recGet (getNoteStats ([] : List Note) 0).priorities Priority.high = none :=
  by decide

/-- C3 amended: the per-priority record of `getNoteStats` contains
exactly the priorities occurring in at least one note, each mapped to
its occurrence count; a priority occurring in no note is absent from the
record (not present with count zero). -/
theorem C3_priority_counts_sparse (notes : List Note) (p : Priority) :
    recGet (getNoteStats notes 0).priorities p
      = if notes.countP (fun note => note.priority == p) = 0 then none
        else some (notes.countP (fun note => note.priority == p)) := by
  show recGet (priorityCounts notes) p = _
  have h := recGet_foldl_recBump (fun note => note.priority) notes [] p
  simp only [recGet, true_and, Option.getD_none, Nat.zero_add] at h
  simpa [priorityCounts] using h

/-- The recency count the claim describes: the trailing 7-day window
with the boundary instant `now − 7 days` included. -/
def specRecentCountInclusive (notes : List Note) (now : Nat) : Nat :=
  (notes.filter fun note =>
    (now : Int) - 604800000 ≤ (note.createdAt : Int)).length

/-- A note created exactly at the window boundary `now − 7 days`. -/
def boundaryNote : Note :=
  { id := "note_b", title := "Boundary", content := "Seven days old",
    tags := [], priority := .low, category := .task, isFavorite := false,
    createdAt := 1600000000000 - 604800000,
    updatedAt := 1600000000000 - 604800000 }

/-- C4 counterexample: the code's window is strict
(`note.createdAt > weekAgo`), so a note created exactly at
`now − 7 days` is not counted, while the claim's inclusive boundary
counts it. -/
theorem C4_counterexample :
    (getNoteStats [boundaryNote] 1600000000000).recentNotes = 0 ∧
    specRecentCountInclusive [boundaryNote] 1600000000000 = 1 := by
  constructor <;> decide

/-- C4 amended: `recentNotes` counts the notes whose `createdAt` lies
strictly inside the trailing 7-day window (the boundary instant
`now − 7 days` itself is excluded); on a collection of 3 notes dated
today, yesterday and 10 days ago it equals 2. -/
theorem C4_recentNotes_strict_window :
    (∀ (notes : List Note) (now : Nat),
      (getNoteStats notes now).recentNotes
        = notes.countP fun note => now < note.createdAt + 604800000) ∧
    (getNoteStats
      [{ boundaryNote with createdAt := 1700000000000 },
        { boundaryNote with createdAt := 1700000000000 - 86400000 },
        { boundaryNote with createdAt := 1700000000000 - 864000000 }]
      1700000000000).recentNotes = 2 := by
  constructor
  · intro notes now
    show (notes.filter _).length = _
    rw [List.countP_eq_length_filter]
    congr 1
    apply List.filter_congr
    intro note _
    rw [decide_eq_decide]
    omega
  · decide

/-- The search text the claim describes: the plain concatenation of
title, content, all tags, category identifier and priority identifier,
with no separators. -/
def specQueryText (note : Note) : String :=
  note.title ++ note.content ++ joinWith "" note.tags
    ++ categoryId note.category ++ priorityId note.priority

/-- The note of the C2 counterexample. -/
def cexNote : Note :=
  { id := "note_c", title := "ab", content := "cd", tags := [],
    priority := .high, category := .bug, isFavorite := false,
    createdAt := 0, updatedAt := 0 }

/-- C2 counterexample: the query `"bcd"` is a substring of the plain
concatenation `"abcdbughigh"` of the note's fields, so the claim retains
the note; the code joins the fields with single spaces
(`"ab cd bug high"`), does not find the query, and drops the note. -/
theorem C2_counterexample :
    strTrim "bcd" ≠ "" ∧
    strContainsB (strLower (specQueryText cexNote)) (strLower "bcd") = true ∧
    queryFieldOk { query := "bcd" } cexNote = false ∧
    filterNotes [cexNote] { query := "bcd" } = [] := by
  refine ⟨by decide, by decide, by decide, by decide⟩

/-- C2 amended: for a query that is non-empty after trimming, the query
constraint retains exactly the notes whose space-separated concatenation
of title, content, all tags, category identifier and priority identifier
(the fields joined by single spaces) contains the query
case-insensitively; the empty query imposes no constraint. -/
theorem C2_query_matches_space_joined_text (notes : List Note) (q : String) :
    (strTrim q ≠ "" →
      filterNotes notes { query := q }
        = notes.filter fun note =>
            strContainsB (strLower (searchableText note)) (strLower q)) ∧
    filterNotes notes { query := "" } = notes := by
  constructor
  · intro hq
    have hne : q ≠ "" := by
      intro he
      exact hq (by rw [he]; rfl)
    have hbe : (q == "") = false := by simp [beq_eq_false_iff_ne, hne]
    apply List.filter_congr
    intro note _
    simp [noteMatches, queryFieldOk, priorityFieldOk, categoryFieldOk,
      favoriteFieldOk, tagsFieldOk, hbe]
  · have : ∀ note ∈ notes, noteMatches { query := "" } note = true := by
      intro note _
      simp [noteMatches, queryFieldOk, priorityFieldOk, categoryFieldOk,
        favoriteFieldOk, tagsFieldOk]
    calc filterNotes notes { query := "" }
        = notes.filter (fun _ => true) := List.filter_congr this
      _ = notes := List.filter_true notes

/-- C2 witness: the amended theorem instantiated at a concrete query and
collection, the non-blank-query hypothesis discharged by evaluation. -/
theorem C2_witness :
    strTrim "bug" ≠ "" ∧
    filterNotes [sampleNote, sampleNote2] { query := "bug" }
      = List.filter
          (fun note => strContainsB (strLower (searchableText note))
            (strLower "bug"))
          [sampleNote, sampleNote2] :=
  ⟨by decide,
    (C2_query_matches_space_joined_text [sampleNote, sampleNote2] "bug").1
      (by decide)⟩

/-- C7: on a collection with pairwise-distinct creation instants,
sorting by `newest` (descending `createdAt`) and then re-sorting the
result by `oldest` (ascending `createdAt`) yields exactly the reverse of
the first result. -/
theorem C7_newest_then_oldest_is_reverse (notes : List Note)
    (hd : notes.Pairwise fun a b => a.createdAt ≠ b.createdAt) :
    sortNotes (sortNotes notes .newest) .oldest
      = (sortNotes notes .newest).reverse := by
  haveI : IsTrans Note fun a b => a.createdAt ≤ b.createdAt :=
    ⟨fun _ _ _ h₁ h₂ => le_trans h₁ h₂⟩
  haveI : IsTotal Note fun a b => a.createdAt ≤ b.createdAt :=
    ⟨fun a b => le_total a.createdAt b.createdAt⟩
  haveI : IsTrans Note fun a b => b.createdAt ≤ a.createdAt :=
    ⟨fun _ _ _ h₁ h₂ => le_trans h₂ h₁⟩
  haveI : IsTotal Note fun a b => b.createdAt ≤ a.createdAt :=
    ⟨fun a b => (le_total b.createdAt a.createdAt)⟩
  haveI : IsAntisymm Note fun a b => a.createdAt < b.createdAt :=
    ⟨fun _ _ h₁ h₂ => absurd h₂ (Nat.lt_asymm h₁)⟩
  have hperm1 : (sortNotes notes .newest).Perm notes :=
    List.perm_insertionSort _ notes
  have hsorted1 : (sortNotes notes .newest).Pairwise
      fun a b => b.createdAt ≤ a.createdAt :=
    List.sorted_insertionSort _ notes
  have hne1 : (sortNotes notes .newest).Pairwise
      fun a b => a.createdAt ≠ b.createdAt :=
    (hperm1.pairwise_iff fun h => h.symm).mpr hd
  have hperm2 : (sortNotes (sortNotes notes .newest) .oldest).Perm
      (sortNotes notes .newest) :=
    List.perm_insertionSort _ _
  have hsorted2 : (sortNotes (sortNotes notes .newest) .oldest).Pairwise
      fun a b => a.createdAt ≤ b.createdAt :=
    List.sorted_insertionSort _ _
  have hne2 : (sortNotes (sortNotes notes .newest) .oldest).Pairwise
      fun a b => a.createdAt ≠ b.createdAt :=
    (hperm2.pairwise_iff fun h => h.symm).mpr hne1
  have hsortedR : (sortNotes notes .newest).reverse.Pairwise
      fun a b => a.createdAt ≤ b.createdAt :=
    List.pairwise_reverse.mpr hsorted1
  have hneR : (sortNotes notes .newest).reverse.Pairwise
      fun a b => a.createdAt ≠ b.createdAt :=
    ((List.reverse_perm _).pairwise_iff fun h => h.symm).mpr hne1
  have hstrict2 : (sortNotes (sortNotes notes .newest) .oldest).Pairwise
      fun a b => a.createdAt < b.createdAt :=
    hsorted2.imp₂ (fun _ _ h₁ h₂ => lt_of_le_of_ne h₁ h₂) hne2
  have hstrictR : (sortNotes notes .newest).reverse.Pairwise
      fun a b => a.createdAt < b.createdAt :=
    hsortedR.imp₂ (fun _ _ h₁ h₂ => lt_of_le_of_ne h₁ h₂) hneR
  exact List.eq_of_perm_of_sorted
    (hperm2.trans (List.reverse_perm _).symm) hstrict2 hstrictR

/-- C7 witness: the theorem instantiated at a concrete two-note
collection with distinct creation instants. -/
theorem C7_witness :
    sortNotes (sortNotes [sampleNote, sampleNote2] .newest) .oldest
      = (sortNotes [sampleNote, sampleNote2] .newest).reverse :=
  C7_newest_then_oldest_is_reverse [sampleNote, sampleNote2] (by decide)

/-- C5: `validateNote` returns exactly one message per violated rule
(title blank after trim, content blank after trim, priority absent,
category absent), nothing else, hence the empty sequence exactly when
the candidate is valid; on the candidate
`{title: "", content: "x", priority: "high", category: "bug"}` it
returns exactly the one message about the missing title. -/
theorem C5_validateNote_one_message_per_violation (c : NoteCandidate) :
    (validateNote c).count "Title is required"
        = (if titleInvalid c then 1 else 0) ∧
    (validateNote c).count "Content is required"
        = (if contentInvalid c then 1 else 0) ∧
    (validateNote c).count "Priority is required"
        = (if priorityInvalid c then 1 else 0) ∧
    (validateNote c).count "Category is required"
        = (if categoryInvalid c then 1 else 0) ∧
    (validateNote c).length
        = (if titleInvalid c then 1 else 0) + (if contentInvalid c then 1 else 0)
          + (if priorityInvalid c then 1 else 0)
          + (if categoryInvalid c then 1 else 0) ∧
    (validateNote c = [] ↔
      titleInvalid c = false ∧ contentInvalid c = false ∧
      priorityInvalid c = false ∧ categoryInvalid c = false) ∧
    validateNote
        { title := some "", content := some "x", priority := some .high,
          category := some .bug }
      = ["Title is required"] := by
  cases h1 : titleInvalid c <;> cases h2 : contentInvalid c <;>
    cases h3 : priorityInvalid c <;> cases h4 : categoryInvalid c <;>
    simp_all [validateNote, List.count_cons, List.count_nil] <;> decide

/-- C8: lifecycle operations respect the timestamp invariant.  Default
construction (`createNewNote` with no overrides) sets both timestamps to
the construction instant; an edit (`handleSave` of an existing note)
preserves `id` and `createdAt` and stamps `updatedAt` with the edit
instant; a favorite toggle preserves `id` and `createdAt` and stamps
`updatedAt` with the toggle instant; hence, for a non-decreasing clock
(`note.createdAt ≤ now`), every produced note satisfies
`createdAt ≤ updatedAt`. -/
theorem C8_lifecycle_createdAt_le_updatedAt :
    (∀ now newId, (createNewNote now newId {}).createdAt = now
      ∧ (createNewNote now newId {}).updatedAt = now) ∧
    (∀ note form now freshId,
      (handleSave (some note) form now freshId).id = note.id
      ∧ (handleSave (some note) form now freshId).createdAt = note.createdAt
      ∧ (handleSave (some note) form now freshId).updatedAt = now) ∧
    (∀ note now, (toggleFavorite note now).id = note.id
      ∧ (toggleFavorite note now).createdAt = note.createdAt
      ∧ (toggleFavorite note now).updatedAt = now) ∧
    (∀ now newId,
      (createNewNote now newId {}).createdAt
        ≤ (createNewNote now newId {}).updatedAt) ∧
    (∀ note form now freshId, note.createdAt ≤ now →
      (handleSave (some note) form now freshId).createdAt
        ≤ (handleSave (some note) form now freshId).updatedAt) ∧
    (∀ note now, note.createdAt ≤ now →
      (toggleFavorite note now).createdAt
        ≤ (toggleFavorite note now).updatedAt) := by
  refine ⟨fun now newId => ⟨rfl, rfl⟩, fun note form now freshId => ⟨rfl, rfl, rfl⟩,
    fun note now => ⟨rfl, rfl, rfl⟩, fun now newId => le_refl _,
    fun note form now freshId h => h, fun note now h => h⟩

/-- Is a JSON value an array (a value carrying `.map`)? -/
def jsonIsArray : Json → Bool
  | .arr _ => true
  | _ => false

/-- C9: `getAllNotes` returns the empty sequence, without failing, when
no blob is stored under the notes key, when the stored blob is text
`JSON.parse` rejects (the exception is caught), and when the parsed
value is not an array (`.map` raises and the exception is caught). -/
theorem C9_getAllNotes_empty_on_absent_or_corrupt :
    getAllNotes none = [] ∧
    (∀ s, getAllNotes (some (StoredBlob.garbage s)) = []) ∧
    (∀ j, jsonIsArray j = false → getAllNotes (some (StoredBlob.json j)) = []) := by
  refine ⟨rfl, fun s => rfl, fun j h => ?_⟩
  cases j <;> simp_all [getAllNotes, jsonIsArray]

/-- C9 witness: the theorem instantiated on a concrete corrupt text blob
and a concrete stored non-array JSON value. -/
theorem C9_witness :
    getAllNotes (some (StoredBlob.garbage "not really json")) = [] ∧
    getAllNotes (some (StoredBlob.json (Json.str "oops"))) = [] :=
  ⟨C9_getAllNotes_empty_on_absent_or_corrupt.2.1 "not really json",
    C9_getAllNotes_empty_on_absent_or_corrupt.2.2 (Json.str "oops") rfl⟩

/-! ## Round trip of the date codec

The inverse pair `civilFromDays` / `daysFromCivil` is verified by
splitting a day count into its 400-year era and day-of-era, checking the
year-of-era formula at the 800 year boundaries by evaluation, and
extending to the whole era by monotonicity. -/

set_option maxRecDepth 4000 in
/-- The year-of-era formula hits each year start
(checked by evaluation for all 400 years of an era). -/
theorem yoeOf_soy_self : ∀ y < 400, yoeOf (soy y) = y := by decide

set_option maxRecDepth 4000 in
/-- The year-of-era formula is still right on each year's last day. -/
theorem yoeOf_soy_last : ∀ y < 399, yoeOf (soy (y + 1) - 1) = y := by decide

/-- The year-of-era formula on the era's very last day. -/
theorem yoeOf_last : yoeOf 146096 = 399 := by decide

set_option maxRecDepth 4000 in
/-- No year of an era is longer than 366 days. -/
theorem soy_gap_le : ∀ y < 400, soy (y + 1) - soy y ≤ 366 := by decide

set_option maxRecDepth 4000 in
/-- Facts about the month/day split of a day-of-year: the month offset
recomputed from the month is at most the day-of-year, the March-based
month index is at most 11, the day-of-month is at most 31, and
day-of-years before 306 fall in month indices up to 9. -/
theorem doy_month_facts : ∀ doy < 366,
    (153 * ((5 * doy + 2) / 153) + 2) / 5 ≤ doy ∧
    (5 * doy + 2) / 153 ≤ 11 ∧
    doy - (153 * ((5 * doy + 2) / 153) + 2) / 5 + 1 ≤ 31 ∧
    (doy < 306 → (5 * doy + 2) / 153 < 10) := by decide

/-- One step of monotonicity for the leap-adjusted day count `gfun`. -/
theorem gfun_le_succ (n : Nat) : gfun n ≤ gfun (n + 1) := by
  have d1 := Nat.succ_div n 1460
  have d2 := Nat.succ_div n 36524
  have d3 := Nat.succ_div n 146096
  have himp : 146096 ∣ (n + 1) → 36524 ∣ (n + 1) := fun h =>
    dvd_trans ⟨4, by norm_num⟩ h
  have ha : n / 1460 ≤ n := Nat.div_le_self n 1460
  have hcb : n / 146096 ≤ n / 36524 :=
    Nat.div_le_div_left (by norm_num) (by norm_num)
  unfold gfun
  by_cases h3 : 146096 ∣ (n + 1)
  · have h2 := himp h3
    simp only [h2, h3, if_true] at d2 d3
    by_cases h1 : 1460 ∣ (n + 1) <;> simp only [h1, if_true, if_false] at d1 <;>
      omega
  · simp only [h3, if_false] at d3
    by_cases h1 : 1460 ∣ (n + 1) <;> by_cases h2 : 36524 ∣ (n + 1) <;>
      simp_all <;> omega

/-- `gfun` is monotone. -/
theorem gfun_monotone : Monotone gfun :=
  monotone_nat_of_le_succ gfun_le_succ

/-- The year-of-era formula is monotone. -/
theorem yoeOf_monotone : Monotone yoeOf := fun _ _ h =>
  Nat.div_le_div_right (gfun_monotone h)

/-- Within an era, the year-of-era formula lands in the right year:
its year start is at or before the day, the day is at most 365 days into
the year, and the year index is at most 399. -/
theorem yoeOf_cover (doe : Nat) (h : doe < 146097) :
    soy (yoeOf doe) ≤ doe ∧ yoeOf doe ≤ 399 ∧ doe - soy (yoeOf doe) < 366 ∧
    (yoeOf doe < 399 → doe < soy (yoeOf doe + 1)) := by
  have htop : yoeOf doe ≤ 399 := by
    have := yoeOf_monotone (show doe ≤ 146096 by omega)
    rw [yoeOf_last] at this
    exact this
  have hlo : soy (yoeOf doe) ≤ doe := by
    by_contra hcon
    push_neg at hcon
    rcases Nat.eq_zero_or_pos (yoeOf doe) with h0 | hpos
    · rw [h0] at hcon
      simp [soy] at hcon
    · have h1 : doe ≤ soy (yoeOf doe) - 1 := by omega
      have h2 : yoeOf doe ≤ yoeOf (soy (yoeOf doe) - 1) := by
        exact yoeOf_monotone h1
      have h3 : yoeOf (soy (yoeOf doe) - 1) = yoeOf doe - 1 := by
        have := yoeOf_soy_last (yoeOf doe - 1) (by omega)
        have he : yoeOf doe - 1 + 1 = yoeOf doe := by omega
        rw [he] at this
        exact this
      omega
  have hhi : yoeOf doe < 399 → doe < soy (yoeOf doe + 1) := by
    intro hlt
    by_contra hcon
    push_neg at hcon
    have h2 : yoeOf (soy (yoeOf doe + 1)) ≤ yoeOf doe := yoeOf_monotone hcon
    have h3 : yoeOf (soy (yoeOf doe + 1)) = yoeOf doe + 1 :=
      yoeOf_soy_self (yoeOf doe + 1) (by omega)
    omega
  refine ⟨hlo, htop, ?_, hhi⟩
  rcases Nat.lt_or_ge (yoeOf doe) 399 with hlt | hge
  · have h1 := hhi hlt
    have h2 := soy_gap_le (yoeOf doe) (by omega)
    omega
  · have h399 : yoeOf doe = 399 := by omega
    rw [h399]
    have : soy 399 = 145731 := by norm_num [soy]
    omega

/-- Reassembling the civil triple produced within one era recovers
`era * 146097 + day-of-era - 719468`. -/
theorem daysFromCivil_reassemble (era yoe doy mp d : Nat)
    (htop : yoe ≤ 399) (hmp11 : mp ≤ 11)
    (hoff : (153 * mp + 2) / 5 ≤ doy)
    (hd : d = doy - (153 * mp + 2) / 5 + 1) :
    daysFromCivil
      ⟨if (if mp < 10 then mp + 3 else mp - 9) ≤ 2 then yoe + era * 400 + 1
          else yoe + era * 400,
        if mp < 10 then mp + 3 else mp - 9, d⟩
      = era * 146097 + (soy yoe + doy) - 719468 := by
  have hdiv : (yoe + era * 400) / 400 = era := by omega
  have hmod : (yoe + era * 400) % 400 = yoe := by omega
  by_cases hmp10 : mp < 10
  · have hM3 : ¬(mp + 3 ≤ 2) := by omega
    have h2M : 2 < mp + 3 := by omega
    simp only [if_pos hmp10, if_neg hM3, if_pos h2M]
    show (if mp + 3 ≤ 2 then yoe + era * 400 - 1 else yoe + era * 400) / 400
        * 146097
        + (soy ((if mp + 3 ≤ 2 then yoe + era * 400 - 1 else yoe + era * 400)
            % 400)
          + ((153 * (if 2 < mp + 3 then mp + 3 - 3 else mp + 3 + 9) + 2) / 5
            + d - 1))
        - 719468 = _
    rw [if_neg hM3, if_pos h2M, hdiv, hmod]
    have h33 : mp + 3 - 3 = mp := by omega
    rw [h33]
    omega
  · have hM2 : mp - 9 ≤ 2 := by omega
    have h2M : ¬(2 < mp - 9) := by omega
    simp only [if_neg hmp10, if_pos hM2, if_neg h2M]
    show (if mp - 9 ≤ 2 then yoe + era * 400 + 1 - 1 else yoe + era * 400 + 1)
          / 400 * 146097
        + (soy ((if mp - 9 ≤ 2 then yoe + era * 400 + 1 - 1
              else yoe + era * 400 + 1) % 400)
          + ((153 * (if 2 < mp - 9 then mp - 9 - 3 else mp - 9 + 9) + 2) / 5
            + d - 1))
        - 719468 = _
    rw [if_pos hM2, if_neg h2M]
    have h11 : yoe + era * 400 + 1 - 1 = yoe + era * 400 := by omega
    rw [h11, hdiv, hmod]
    have h99 : mp - 9 + 9 = mp := by omega
    rw [h99]
    omega

/-- `days_from_civil` undoes `civil_from_days` throughout the modelled
range (day counts up to the end of year 9999). -/
theorem daysFromCivil_civilFromDays (days : Nat) (h : days < 2932897) :
    daysFromCivil (civilFromDays days) = days := by
  set z := days + 719468 with hzdef
  set era := z / 146097 with heradef
  set doe := z % 146097 with hdoedef
  have hdoe_lt : doe < 146097 := Nat.mod_lt _ (by norm_num)
  obtain ⟨hlo, htop, hdoy_lt, hhi⟩ := yoeOf_cover doe hdoe_lt
  set yoe := yoeOf doe with hyoedef
  set doy := doe - soy yoe with hdoydef
  obtain ⟨hoff, hmp11, hd31, h306⟩ := doy_month_facts doy hdoy_lt
  set mp := (5 * doy + 2) / 153 with hmpdef
  have hdm : 146097 * era + doe = z := Nat.div_add_mod z 146097
  have hcv : civilFromDays days
      = ⟨if (if mp < 10 then mp + 3 else mp - 9) ≤ 2 then yoe + era * 400 + 1
          else yoe + era * 400,
        if mp < 10 then mp + 3 else mp - 9,
        doy - (153 * mp + 2) / 5 + 1⟩ := rfl
  rw [hcv, daysFromCivil_reassemble era yoe doy mp _ htop hmp11 hoff rfl]
  omega

/-- The calendar year of a day count in the modelled range stays below
10000 (so its decimal rendering needs only four digits). -/
theorem civilFromDays_year_lt (days : Nat) (h : days < 2932897) :
    (civilFromDays days).year < 10000 := by
  set z := days + 719468 with hzdef
  set era := z / 146097 with heradef
  set doe := z % 146097 with hdoedef
  have hdoe_lt : doe < 146097 := Nat.mod_lt _ (by norm_num)
  obtain ⟨hlo, htop, hdoy_lt, hhi⟩ := yoeOf_cover doe hdoe_lt
  set yoe := yoeOf doe with hyoedef
  set doy := doe - soy yoe with hdoydef
  obtain ⟨hoff, hmp11, hd31, h306⟩ := doy_month_facts doy hdoy_lt
  set mp := (5 * doy + 2) / 153 with hmpdef
  have hdm : 146097 * era + doe = z := Nat.div_add_mod z 146097
  have hsoy : soy yoe = 365 * yoe + yoe / 4 - yoe / 100 := rfl
  have hsoy399 : soy 399 = 145731 := by norm_num [soy]
  have hcv : civilFromDays days
      = ⟨if (if mp < 10 then mp + 3 else mp - 9) ≤ 2 then yoe + era * 400 + 1
          else yoe + era * 400,
        if mp < 10 then mp + 3 else mp - 9,
        doy - (153 * mp + 2) / 5 + 1⟩ := rfl
  rw [hcv]
  show (if (if mp < 10 then mp + 3 else mp - 9) ≤ 2 then yoe + era * 400 + 1
    else yoe + era * 400) < 10000
  by_cases hdoy306 : doy < 306
  · have hmp10 : mp < 10 := h306 hdoy306
    split_ifs <;> omega
  · rcases Nat.lt_or_ge yoe 399 with hy | hy
    · split_ifs <;> omega
    · have hy399 : yoe = 399 := by omega
      have hsy : soy yoe = 145731 := by rw [hy399, hsoy399]
      split_ifs <;> omega

/-- The month and day of any converted day count are two-digit numbers
in calendar range. -/
theorem civilFromDays_month_day_bounds (days : Nat) :
    1 ≤ (civilFromDays days).month ∧ (civilFromDays days).month ≤ 12 ∧
    1 ≤ (civilFromDays days).day ∧ (civilFromDays days).day ≤ 31 := by
  set z := days + 719468 with hzdef
  set era := z / 146097 with heradef
  set doe := z % 146097 with hdoedef
  have hdoe_lt : doe < 146097 := Nat.mod_lt _ (by norm_num)
  obtain ⟨hlo, htop, hdoy_lt, hhi⟩ := yoeOf_cover doe hdoe_lt
  set yoe := yoeOf doe with hyoedef
  set doy := doe - soy yoe with hdoydef
  obtain ⟨hoff, hmp11, hd31, h306⟩ := doy_month_facts doy hdoy_lt
  set mp := (5 * doy + 2) / 153 with hmpdef
  have hcv : civilFromDays days
      = ⟨if (if mp < 10 then mp + 3 else mp - 9) ≤ 2 then yoe + era * 400 + 1
          else yoe + era * 400,
        if mp < 10 then mp + 3 else mp - 9,
        doy - (153 * mp + 2) / 5 + 1⟩ := rfl
  rw [hcv]
  refine ⟨?_, ?_, ?_, ?_⟩
  · show 1 ≤ (if mp < 10 then mp + 3 else mp - 9)
    split_ifs <;> omega
  · show (if mp < 10 then mp + 3 else mp - 9) ≤ 12
    split_ifs <;> omega
  · show 1 ≤ doy - (153 * mp + 2) / 5 + 1
    omega
  · exact hd31

/-- Decimal digit characters are digits and decode to their value. -/
theorem digitChar_roundtrip : ∀ k < 10,
    (digitChar k).isDigit = true ∧ digitVal (digitChar k) = k := by decide

/-- Parsing a rendered ISO string recovers the rendered fields. -/
theorem isoParse_construct (Y M D hh mi ss fff : Nat)
    (hY : Y < 10000) (hM : M < 100) (hD : D < 100) (hhh : hh < 100)
    (hmi : mi < 100) (hss : ss < 100) (hfff : fff < 1000) :
    isoParse ⟨pad4 Y ++ '-' :: pad2 M ++ '-' :: pad2 D ++ 'T' :: pad2 hh
      ++ ':' :: pad2 mi ++ ':' :: pad2 ss ++ '.' :: pad3 fff ++ ['Z']⟩
      = some (daysFromCivil ⟨Y, M, D⟩ * msPerDay + hh * 3600000 + mi * 60000
        + ss * 1000 + fff) := by
  obtain ⟨g1, w1⟩ := digitChar_roundtrip (Y / 1000) (by omega)
  obtain ⟨g2, w2⟩ := digitChar_roundtrip (Y / 100 % 10) (by omega)
  obtain ⟨g3, w3⟩ := digitChar_roundtrip (Y / 10 % 10) (by omega)
  obtain ⟨g4, w4⟩ := digitChar_roundtrip (Y % 10) (by omega)
  obtain ⟨g5, w5⟩ := digitChar_roundtrip (M / 10) (by omega)
  obtain ⟨g6, w6⟩ := digitChar_roundtrip (M % 10) (by omega)
  obtain ⟨g7, w7⟩ := digitChar_roundtrip (D / 10) (by omega)
  obtain ⟨g8, w8⟩ := digitChar_roundtrip (D % 10) (by omega)
  obtain ⟨g9, w9⟩ := digitChar_roundtrip (hh / 10) (by omega)
  obtain ⟨g10, w10⟩ := digitChar_roundtrip (hh % 10) (by omega)
  obtain ⟨g11, w11⟩ := digitChar_roundtrip (mi / 10) (by omega)
  obtain ⟨g12, w12⟩ := digitChar_roundtrip (mi % 10) (by omega)
  obtain ⟨g13, w13⟩ := digitChar_roundtrip (ss / 10) (by omega)
  obtain ⟨g14, w14⟩ := digitChar_roundtrip (ss % 10) (by omega)
  obtain ⟨g15, w15⟩ := digitChar_roundtrip (fff / 100) (by omega)
  obtain ⟨g16, w16⟩ := digitChar_roundtrip (fff / 10 % 10) (by omega)
  obtain ⟨g17, w17⟩ := digitChar_roundtrip (fff % 10) (by omega)
  have hY4 : ((Y / 1000 * 10 + Y / 100 % 10) * 10 + Y / 10 % 10) * 10 + Y % 10
      = Y := by omega
  have hM2 : M / 10 * 10 + M % 10 = M := by omega
  have hD2 : D / 10 * 10 + D % 10 = D := by omega
  have hh2 : hh / 10 * 10 + hh % 10 = hh := by omega
  have hmi2 : mi / 10 * 10 + mi % 10 = mi := by omega
  have hss2 : ss / 10 * 10 + ss % 10 = ss := by omega
  have hf3 : (fff / 100 * 10 + fff / 10 % 10) * 10 + fff % 10 = fff := by omega
  simp only [pad4, pad2, pad3, List.cons_append, List.nil_append, isoParse,
    g1, g2, g3, g4, g5, g6, g7, g8, g9, g10, g11, g12, g13, g14, g15, g16, g17,
    w1, w2, w3, w4, w5, w6, w7, w8, w9, w10, w11, w12, w13, w14, w15, w16, w17,
    Bool.and_self, Bool.and_true, Bool.true_and, if_true, hY4, hM2, hD2, hh2,
    hmi2, hss2, hf3]

/-- `new Date(d.toJSON()).getTime() = d.getTime()`: the ISO serialization
round-trips every instant of the modelled range. -/
theorem isoParse_isoOfMs (ms : Nat) (h : ms < maxIsoMs) :
    isoParse (isoOfMs ms) = some ms := by
  have hmax : maxIsoMs = 253402300800000 := rfl
  have hdays : ms / msPerDay < 2932897 := by
    simp only [msPerDay]
    omega
  have hyear := civilFromDays_year_lt (ms / msPerDay) hdays
  obtain ⟨hm1, hm12, hd1, hd31⟩ := civilFromDays_month_day_bounds (ms / msPerDay)
  have hdc := daysFromCivil_civilFromDays (ms / msPerDay) hdays
  have hmsd : ms % msPerDay < 86400000 := Nat.mod_lt _ (by norm_num [msPerDay])
  have hic : isoOfMs ms
      = ⟨pad4 (civilFromDays (ms / msPerDay)).year
          ++ '-' :: pad2 (civilFromDays (ms / msPerDay)).month
          ++ '-' :: pad2 (civilFromDays (ms / msPerDay)).day
          ++ 'T' :: pad2 (ms % msPerDay / 3600000)
          ++ ':' :: pad2 (ms % msPerDay % 3600000 / 60000)
          ++ ':' :: pad2 (ms % msPerDay % 60000 / 1000)
          ++ '.' :: pad3 (ms % msPerDay % 1000) ++ ['Z']⟩ := rfl
  rw [hic, isoParse_construct _ _ _ _ _ _ _ hyear (by omega) (by omega)
    (by omega) (by omega) (by omega) (by omega)]
  have heta : (⟨(civilFromDays (ms / msPerDay)).year,
      (civilFromDays (ms / msPerDay)).month,
      (civilFromDays (ms / msPerDay)).day⟩ : CivilDate)
      = civilFromDays (ms / msPerDay) := rfl
  rw [heta, hdc]
  refine congrArg some ?_
  simp only [msPerDay]
  omega

/-- A mapped string array deserializes to the original list. -/
theorem jsonStrList_map_str (l : List String) :
    jsonStrList (l.map Json.str) = some l := by
  induction l with
  | nil => rfl
  | cons s t ih => simp [jsonStrList, ih]

/-- The priority identifier round-trips. -/
theorem priorityOfId_priorityId (p : Priority) :
    priorityOfId (priorityId p) = some p := by
  cases p <;> rfl

/-- The category identifier round-trips. -/
theorem categoryOfId_categoryId (c : Category) :
    categoryOfId (categoryId c) = some c := by
  cases c <;> rfl

/-- Each field of a serialized note decodes back to the field value. -/
theorem noteFieldsJson_decode (note : Note) :
    getStrField (noteFieldsJson note) "id" = some note.id ∧
    getStrField (noteFieldsJson note) "title" = some note.title ∧
    getStrField (noteFieldsJson note) "content" = some note.content ∧
    decodeTagsField (noteFieldsJson note) = some note.tags ∧
    decodePriorityField (noteFieldsJson note) = some note.priority ∧
    decodeCategoryField (noteFieldsJson note) = some note.category ∧
    getBoolField (noteFieldsJson note) "isFavorite" = some note.isFavorite ∧
    getStrField (noteFieldsJson note) "createdAt"
      = some (isoOfMs note.createdAt) ∧
    getStrField (noteFieldsJson note) "updatedAt"
      = some (isoOfMs note.updatedAt) := by
  refine ⟨rfl, rfl, rfl, ?_, ?_, ?_, rfl, rfl, rfl⟩
  · show jsonStrList (note.tags.map Json.str) = some note.tags
    exact jsonStrList_map_str note.tags
  · show priorityOfId (priorityId note.priority) = some note.priority
    exact priorityOfId_priorityId note.priority
  · show categoryOfId (categoryId note.category) = some note.category
    exact categoryOfId_categoryId note.category

/-- One serialized note deserializes to itself (timestamps in the
modelled range). -/
theorem noteFromJson_noteToJson (note : Note) (h : noteDatesValid note) :
    noteFromJson (noteToJson note) = some note := by
  obtain ⟨h1, h2⟩ := h
  obtain ⟨e1, e2, e3, e4, e5, e6, e7, e8, e9⟩ := noteFieldsJson_decode note
  have d8 : decodeDateField (noteFieldsJson note) "createdAt"
      = some note.createdAt := by
    rw [decodeDateField, e8, Option.some_bind, isoParse_isoOfMs _ h1]
  have d9 : decodeDateField (noteFieldsJson note) "updatedAt"
      = some note.updatedAt := by
    rw [decodeDateField, e9, Option.some_bind, isoParse_isoOfMs _ h2]
  show noteFromJson (.obj (noteFieldsJson note)) = some note
  simp only [noteFromJson, e1, e2, e3, e4, e5, e6, e7, d8, d9,
    Option.some_bind, Option.map_some']

/-- C6: importing a collection and then loading returns the same
collection: no note, field or order is lost, and the timestamps come
back as the same instants (hypothesis: every timestamp lies in the
modelled serialization range, as every application-produced timestamp
does). -/
theorem C6_import_then_load_roundtrip (notes : List Note)
    (store : Option StoredBlob) (h : ∀ note ∈ notes, noteDatesValid note) :
    getAllNotes (importNotes notes store) = notes := by
  show (notes.map noteToJson).filterMap noteFromJson = notes
  induction notes with
  | nil => rfl
  | cons n t ih =>
    rw [List.map_cons,
      List.filterMap_cons_some (noteFromJson_noteToJson n (h n (by simp))),
      ih fun m hm => h m (by simp [hm])]

/-- C6 witness: a concrete two-note collection round-trips through the
store. -/
theorem C6_witness :
    getAllNotes (importNotes [sampleNote, sampleNote2] none)
      = [sampleNote, sampleNote2] :=
  C6_import_then_load_roundtrip [sampleNote, sampleNote2] none (by decide)

/-- Replace the first note carrying the given identifier in place, or
append the note when no stored note carries it: the update shape the C10
claim describes. -/
def replaceFirstById : List Note → Note → List Note
  | [], n => [n]
  | m :: t, n => if m.id == n.id then n :: t else m :: replaceFirstById t n

/-- The `findIndex`-and-set update of `saveNote` is exactly
first-replacement-or-append. -/
theorem saveNoteList_eq_replaceFirstById (l : List Note) (n : Note) :
    saveNoteList l n = replaceFirstById l n := by
  induction l with
  | nil => rfl
  | cons m t ih =>
    by_cases h : m.id == n.id
    · simp [saveNoteList, replaceFirstById, List.findIdx?_cons, h]
    · cases hf : t.findIdx? (fun x => x.id == n.id) with
      | none =>
        simp only [saveNoteList, hf] at ih
        simp [saveNoteList, replaceFirstById, List.findIdx?_cons,
          List.findIdx?_succ, h, hf, ih]
      | some i =>
        simp only [saveNoteList, hf] at ih
        simp [saveNoteList, replaceFirstById, List.findIdx?_cons,
          List.findIdx?_succ, h, hf, ih]

/-- Replacement-or-append touches no note with a different identifier:
the notes whose identifier differs are the same, in the same order. -/
theorem replaceFirstById_filter_ne (l : List Note) (n : Note) :
    (replaceFirstById l n).filter (fun m => !(m.id == n.id))
      = l.filter (fun m => !(m.id == n.id)) := by
  induction l with
  | nil => simp [replaceFirstById]
  | cons m t ih =>
    by_cases h : m.id == n.id
    · simp [replaceFirstById, h]
    · simp [replaceFirstById, h, ih]

/-- When no stored note carries the identifier, replacement-or-append
is plain append. -/
theorem replaceFirstById_of_no_match (l : List Note) (n : Note)
    (h : ∀ m ∈ l, (m.id == n.id) = false) :
    replaceFirstById l n = l ++ [n] := by
  induction l with
  | nil => rfl
  | cons m t ih =>
    have hm := h m (by simp)
    simp only [replaceFirstById, hm, Bool.false_eq_true, if_false,
      List.cons_append]
    rw [ih fun x hx => h x (by simp [hx])]

/-- C10: `saveNote` is an upsert that frames every other note.  The
stored collection afterwards is the prior collection with the first note
carrying the saved identifier replaced in place, or with the note
appended when no stored note carries it; the notes with a different
identifier are untouched and keep their relative order.  (Hypotheses:
the saved and stored timestamps lie in the modelled serialization
range.) -/
theorem C10_saveNote_upsert_frame (note : Note) (store : Option StoredBlob)
    (hn : noteDatesValid note)
    (hall : ∀ m ∈ getAllNotes store, noteDatesValid m) :
    getAllNotes (saveNote note store)
      = replaceFirstById (getAllNotes store) note ∧
    ((∀ m ∈ getAllNotes store, (m.id == note.id) = false) →
      getAllNotes (saveNote note store) = getAllNotes store ++ [note]) ∧
    (getAllNotes (saveNote note store)).filter (fun m => !(m.id == note.id))
      = (getAllNotes store).filter (fun m => !(m.id == note.id)) := by
  have hmem : ∀ m ∈ saveNoteList (getAllNotes store) note, noteDatesValid m := by
    rw [saveNoteList_eq_replaceFirstById]
    intro m hm
    have : ∀ l, (∀ x ∈ l, noteDatesValid x) → m ∈ replaceFirstById l note →
        noteDatesValid m := by
      intro l
      induction l with
      | nil =>
        intro _ hm2
        simp only [replaceFirstById, List.mem_singleton] at hm2
        exact hm2 ▸ hn
      | cons x t ih =>
        intro hl hm2
        by_cases hx : x.id == note.id
        · simp only [replaceFirstById, hx, if_true, List.mem_cons] at hm2
          rcases hm2 with rfl | hm2
          · exact hn
          · exact hl m (by simp [hm2])
        · simp only [replaceFirstById, hx, Bool.false_eq_true, if_false,
            List.mem_cons] at hm2
          rcases hm2 with rfl | hm2
          · exact hl m (by simp)
          · exact ih (fun y hy => hl y (by simp [hy])) hm2
    exact this (getAllNotes store) hall hm
  have hload : getAllNotes (saveNote note store)
      = saveNoteList (getAllNotes store) note := by
    show ((saveNoteList (getAllNotes store) note).map noteToJson).filterMap
        noteFromJson = _
    generalize hL : saveNoteList (getAllNotes store) note = L at hmem ⊢
    clear hL
    induction L with
    | nil => rfl
    | cons m t ih =>
      rw [List.map_cons,
        List.filterMap_cons_some (noteFromJson_noteToJson m (hmem m (by simp))),
        ih fun x hx => hmem x (by simp [hx])]
  refine ⟨?_, ?_, ?_⟩
  · rw [hload, saveNoteList_eq_replaceFirstById]
  · intro hno
    rw [hload, saveNoteList_eq_replaceFirstById,
      replaceFirstById_of_no_match _ _ hno]
  · rw [hload, saveNoteList_eq_replaceFirstById,
      replaceFirstById_filter_ne]

/-- C10 witness: the theorem instantiated on a concrete store holding
one note, saving a note with a fresh identifier. -/
theorem C10_witness :
    getAllNotes (saveNote sampleNote2 (importNotes [sampleNote] none))
      = replaceFirstById (getAllNotes (importNotes [sampleNote] none))
          sampleNote2 :=
  (C10_saveNote_upsert_frame sampleNote2 (importNotes [sampleNote] none)
    (by decide) (by decide)).1

/-- C8 witness: the clocked parts of the theorem instantiated at a
concrete note, edit and toggle instant. -/
theorem C8_witness :
    (handleSave (some sampleNote)
        { title := "T", content := "C", tags := "", priority := .low,
          category := .task, isFavorite := false }
        1600000200000 "note_9").createdAt
      ≤ (handleSave (some sampleNote)
        { title := "T", content := "C", tags := "", priority := .low,
          category := .task, isFavorite := false }
        1600000200000 "note_9").updatedAt ∧
    (toggleFavorite sampleNote 1600000200000).createdAt
      ≤ (toggleFavorite sampleNote 1600000200000).updatedAt :=
  ⟨C8_lifecycle_createdAt_le_updatedAt.2.2.2.2.1 sampleNote
      { title := "T", content := "C", tags := "", priority := .low,
        category := .task, isFavorite := false }
      1600000200000 "note_9" (by decide),
    C8_lifecycle_createdAt_le_updatedAt.2.2.2.2.2 sampleNote 1600000200000
      (by decide)⟩

end NotesApp
